import Mathlib

/-!
Shallow embedding of the outreach state machine of the JobAutomationBot
repository (src/job_automation_app.py, src/recruiter_bot.py,
src/autofill_from_jobright.py).

Python strings are modelled as `List Char` (`Str`), Python `datetime.date`
values as `PyDate` triples with the proleptic-Gregorian ordinal used for
date subtraction.  The browser page a run interacts with is modelled as a
static record of the texts and affordances the code queries: since the
pages the code polls are re-read unchanged on every loop iteration of a
poll, the bounded polling loops collapse to a single predicate evaluation.
The nondeterminism of a live send (which channel is available, whether the
editor and submit control are found) is supplied by explicit oracle
parameters.
-/

/-- Conversion from a Lean string literal to the `List Char` model of a
Python string. -/
def str (s : String) : List Char := s.toList

/-- Python string model. -/
abbrev Str := List Char

/-- Whitespace characters recognized by Python's `str.strip` / `str.split`
for the ASCII range used by this program. -/
def isPySpace (c : Char) : Bool :=
  c = ' ' || c = '\t' || c = '\n' || c = '\r' || c = '\x0b' || c = '\x0c'

/-- Python `str.lower` (ASCII range, which is all this program compares). -/
def pyLower (s : Str) : Str := s.map Char.toLower

/-- Python `str.upper` (ASCII range). -/
def pyUpper (s : Str) : Str := s.map Char.toUpper

/-- Python `str.lstrip()`. -/
def pyLStrip (s : Str) : Str := s.dropWhile isPySpace

/-- Python `str.rstrip()`. -/
def pyRStrip (s : Str) : Str := (s.reverse.dropWhile isPySpace).reverse

/-- Python `str.strip()`. -/
def pyStrip (s : Str) : Str := pyRStrip (pyLStrip s)

/-- Helper for `pySplit`: accumulates the current word (reversed). -/
def pySplitGo : Str → Str → List Str
  | [], acc => if acc = [] then [] else [acc.reverse]
  | c :: rest, acc =>
    if isPySpace c then
      if acc = [] then pySplitGo rest [] else acc.reverse :: pySplitGo rest []
    else pySplitGo rest (c :: acc)

/-- Python `str.split()` with no separator: split on whitespace runs,
dropping empty pieces. -/
def pySplit (s : Str) : List Str := pySplitGo s []

/-- Python `" ".join(words)`. -/
def joinSpace : List Str → Str
  | [] => []
  | [w] => w
  | w :: ws => w ++ ' ' :: joinSpace ws

/-- Python substring test `needle in hay`. -/
def strContains (needle : Str) : Str → Bool
  | [] => needle.isEmpty
  | c :: rest => needle.isPrefixOf (c :: rest) || strContains needle rest

/-- `normalize_name` from src/job_automation_app.py:479: lowercase, strip,
collapse internal whitespace. -/
def normalize_name (name : Str) : Str := joinSpace (pySplit (pyLower name))

/-! ## Dates (`datetime.date`) -/

/-- Gregorian leap-year test, as used by `datetime.date`. -/
def isLeapYear (y : Nat) : Bool := y % 4 == 0 && (y % 100 != 0 || y % 400 == 0)

/-- Number of days in month `m` of year `y`. -/
def daysInMonth (y m : Nat) : Nat :=
  if m = 2 then (if isLeapYear y then 29 else 28)
  else if m = 4 ∨ m = 6 ∨ m = 9 ∨ m = 11 then 30
  else 31

/-- Days in the months of year `y` strictly before month `m`. -/
def daysBeforeMonth (y m : Nat) : Nat :=
  (List.range (m - 1)).foldl (fun acc k => acc + daysInMonth y (k + 1)) 0

/-- Days before January 1st of year `y` counting from the epoch of the
proleptic Gregorian ordinal (year 1, day 1 has ordinal 1). -/
def daysBeforeYear (y : Nat) : Nat :=
  let n := y - 1
  n * 365 + n / 4 - n / 100 + n / 400

/-- A `datetime.date` value. -/
structure PyDate where
  year : Nat
  month : Nat
  day : Nat
deriving DecidableEq, Repr

/-- `date.toordinal()`: proleptic Gregorian ordinal; the difference of two
ordinals is exactly `(a - b).days` in Python. -/
def toOrdinal (d : PyDate) : Nat :=
  daysBeforeYear d.year + daysBeforeMonth d.year d.month + d.day

/-- Numeric value of a decimal digit character, if it is one. -/
def digitVal (c : Char) : Option Nat :=
  if c.isDigit then some (c.toNat - 48) else none

/-- `datetime.date.fromisoformat`: accepts exactly `YYYY-MM-DD` with a
valid calendar date (year 1..9999), raising `ValueError` (here: `none`)
otherwise. -/
def fromIsoFormat (s : Str) : Option PyDate :=
  match s with
  | [y1, y2, y3, y4, h1, m1, m2, h2, d1, d2] =>
    if (h1 = '-' && h2 = '-' && y1.isDigit && y2.isDigit && y3.isDigit &&
        y4.isDigit && m1.isDigit && m2.isDigit && d1.isDigit && d2.isDigit) then
      let y := (y1.toNat - 48) * 1000 + (y2.toNat - 48) * 100 +
               (y3.toNat - 48) * 10 + (y4.toNat - 48)
      let m := (m1.toNat - 48) * 10 + (m2.toNat - 48)
      let d := (d1.toNat - 48) * 10 + (d2.toNat - 48)
      if 1 ≤ y ∧ y ≤ 9999 ∧ 1 ≤ m ∧ m ≤ 12 ∧ 1 ≤ d ∧ d ≤ daysInMonth y m then
        some ⟨y, m, d⟩
      else none
    else none
  | _ => none

/-- Render a number as exactly `n` decimal digits, zero padded (enough for
the 4/2/2 fields of an ISO date). -/
def padDigits : Nat → Nat → Str
  | 0, _ => []
  | k + 1, n => padDigits k (n / 10) ++ [Nat.digitChar (n % 10)]

/-- `date.isoformat()`: `YYYY-MM-DD`, zero padded. -/
def isoFormat (d : PyDate) : Str :=
  padDigits 4 d.year ++ '-' :: (padDigits 2 d.month ++ '-' :: padDigits 2 d.day)

/-! ## The record store row (one Google-Sheet row) -/

/-- A row of the record store, with the header of
src/job_automation_app.py:127 `append_recruiter_row`. All fields keep the
store's textual representation. -/
structure Row where
  recruiter_name : Str
  job_title : Str
  company : Str
  linkedin_url : Str
  status : Str
  message1_sent : Str
  message2_sent : Str
  last_contacted : Str
  notes : Str
  job_url : Str
deriving DecidableEq, Repr

/-! ## Safety helpers (src/job_automation_app.py:479-560) -/

/-- Static model of the profile page a send attempt interacts with:
the first `//h1` text (if such an element is found), the texts of the
displayed header candidates scanned by `verify_profile_loaded`, the page
body text, and the texts of the displayed message-modal header candidates
scanned by `verify_message_modal_recipient`. -/
structure ProfilePage where
  h1Text : Option Str
  headerTexts : List Str
  bodyText : Str
  modalHeaders : List Str
deriving DecidableEq, Repr

/-- `verify_profile_loaded` (src/job_automation_app.py:486): empty expected
name verifies trivially; otherwise the normalized expected name must occur
in a normalized displayed header text, or (fallback) in the lowercased body
text.  The page is static in this model, so the timeout polling loop
collapses to one evaluation. -/
def verify_profile_loaded (page : ProfilePage) (expected : Str) : Bool :=
  if expected = [] then true
  else
    let en := normalize_name expected
    (page.headerTexts.any fun t => !(en == []) && strContains en (normalize_name t))
      || strContains en (pyLower page.bodyText)

/-- `verify_message_modal_recipient` (src/job_automation_app.py:529). -/
def verify_message_modal_recipient (page : ProfilePage) (expected : Str) : Bool :=
  if expected = [] then true
  else
    let en := normalize_name expected
    page.modalHeaders.any fun t => !(en == []) && strContains en (normalize_name t)

/-! ## Messaging channel protocol (src/job_automation_app.py:570-828) -/

/-- The string results of `open_message_or_connect`
("note" / "message" / "follow_only"; Python `None` becomes `Option.none`). -/
inductive Channel
  | note
  | message
  | followOnly
deriving DecidableEq, Repr

/-- Static model of the action affordances `open_message_or_connect`
queries on the profile: whether a displayed connect button exists, whether
after clicking it a displayed 'Add a note' button or an open editor is
found within the poll, and whether displayed message / follow buttons
exist. -/
structure Affordances where
  connectVisible : Bool
  noteButtonVisible : Bool
  editorVisible : Bool
  messageVisible : Bool
  followVisible : Bool
deriving DecidableEq, Repr

/-- `open_message_or_connect` (src/job_automation_app.py:570): connect is
tried first; after a connect click, an 'Add a note' button or an already
open editor yields channel "note", else the function returns "follow_only"
without ever trying the message path.  The message path runs only when no
connect button was found. -/
def open_message_or_connect (a : Affordances) : Option Channel :=
  if a.connectVisible then
    if a.noteButtonVisible then some Channel.note
    else if a.editorVisible then some Channel.note
    else some Channel.followOnly
  else if a.messageVisible then some Channel.message
  else if a.followVisible then some Channel.followOnly
  else none

/-- `shorten_for_note` (src/job_automation_app.py:70). -/
def shorten_for_note (text : Str) (limit : Nat) : Str :=
  let t := pyStrip text
  if t.length ≤ limit then t
  else pyRStrip (t.take (limit - 3)) ++ str "..."

/-- The result of `send_connection_message`: Python `True` / `False` /
the sentinel string `"UNREACHABLE"`. -/
inductive SendResult
  | ok
  | failed
  | unreachable
deriving DecidableEq, Repr

/-- The generic-name check of src/job_automation_app.py:794. -/
def isGenericName (expected : Str) : Bool :=
  pyLower expected == str "hiring team" ||
  pyLower expected == str "talent team" ||
  pyLower expected == str "recruiting team"

/-- The expected name actually used for the safety checks
(src/job_automation_app.py:769-791): the sheet's recruiter name, replaced
by the on-page `//h1` profile name whenever that extraction yields a
nonempty string. -/
def effective_expected_name (row : Row) (page : ProfilePage) : Str :=
  let sheet_name := pyStrip row.recruiter_name
  match page.h1Text with
  | some t => let r := pyStrip t; if r = [] then sheet_name else r
  | none => sheet_name

/-- Channel dispatch part of `send_connection_message`
(src/job_automation_app.py:813-828).  `sendOk` is the oracle for
`send_message_in_modal`'s editor/submit search succeeding; the note branch
passes `skip_modal_check=True`, the message branch verifies the modal
recipient first. -/
def scmDispatch (page : ProfilePage) (expected : Str) (a : Affordances)
    (sendOk : Bool) : SendResult :=
  match open_message_or_connect a with
  | some Channel.note => if sendOk then SendResult.ok else SendResult.failed
  | some Channel.message =>
    if verify_message_modal_recipient page expected then
      if sendOk then SendResult.ok else SendResult.failed
    else SendResult.failed
  | some Channel.followOnly => SendResult.unreachable
  | none => SendResult.unreachable

/-- `send_connection_message` (src/job_automation_app.py:768): missing URL
short-circuits to UNREACHABLE; then the effective expected name is
computed, generic names skip strict verification, other names must pass
`verify_profile_loaded` or the attempt returns `False` (safety block);
finally the discovered channel is used. -/
def send_connection_message (row : Row) (page : ProfilePage) (a : Affordances)
    (sendOk : Bool) : SendResult :=
  if row.linkedin_url = [] then SendResult.unreachable
  else
    let expected := effective_expected_name row page
    if isGenericName expected then scmDispatch page expected a sendOk
    else if verify_profile_loaded page expected then scmDispatch page expected a sendOk
    else SendResult.failed

/-! ## Run orchestrators (src/job_automation_app.py:830-930,
src/recruiter_bot.py:219-285) -/

/-- The outcome `run_first_messages` / `run_followups` receive from
`send_connection_message` for an attempted row: Python `True`,
`"UNREACHABLE"`, or `False` (safety block / submission failure). -/
inductive Outcome
  | sent
  | unreachable
  | skip
deriving DecidableEq, Repr

/-- One row of a run's trace: the row before the iteration, the row as
left in the store afterwards, and the attempt outcome (`none` when the row
was not attempted, because it was ineligible or the quota was already
reached). -/
structure Step where
  old : Row
  new : Row
  att : Option Outcome
deriving DecidableEq, Repr

/-- Trace step of the recruiter_bot runs, whose send reports a plain
boolean. -/
structure RbStep where
  old : Row
  new : Row
  att : Option Bool
deriving DecidableEq, Repr

/-- First-stage eligibility (src/job_automation_app.py:844-847 and
src/recruiter_bot.py:232-235): `status.lower() == "pending"` and
`str(message1_sent).upper() not in ("TRUE", "YES")`. -/
def firstEligible (row : Row) : Bool :=
  (pyLower row.status == str "pending") &&
  !((pyUpper row.message1_sent == str "TRUE") ||
    (pyUpper row.message1_sent == str "YES"))

/-- The date gate of the follow-up loop: `last_contacted` must parse
(`ValueError` means `continue`) and `(today - last_date).days >=
days_wait`. -/
def lastOkB (today : PyDate) (W : Nat) (lc : Str) : Bool :=
  match fromIsoFormat lc with
  | none => false
  | some d => decide ((W : Int) ≤ (toOrdinal today : Int) - (toOrdinal d : Int))

/-- Follow-up eligibility (src/job_automation_app.py:895-906 and
src/recruiter_bot.py:264-275). -/
def followEligible (today : PyDate) (W : Nat) (row : Row) : Bool :=
  ((pyLower row.status == str "pending") || (pyLower row.status == str "connected")) &&
  (pyUpper row.message1_sent == str "TRUE") &&
  !(pyUpper row.message2_sent == str "TRUE") &&
  !(row.last_contacted == ([] : Str)) &&
  lastOkB today W row.last_contacted

/-- Row mutation on a sent first message
(src/job_automation_app.py:850-858). -/
def applyFirstSent (today : Str) (row : Row) : Row :=
  { row with message1_sent := str "TRUE", last_contacted := today,
             status := str "connected" }

/-- Row mutation on an unreachable first-stage attempt
(src/job_automation_app.py:860-867). -/
def applyFirstUnreachable (row : Row) : Row :=
  { row with message1_sent := str "TRUE", status := str "unreachable" }

/-- Row mutation on a sent follow-up (src/job_automation_app.py:910-917). -/
def applyFollowSent (today : PyDate) (row : Row) : Row :=
  { row with message2_sent := str "TRUE", last_contacted := isoFormat today }

/-- Row mutation on an unreachable follow-up attempt
(src/job_automation_app.py:919-920). -/
def applyFollowUnreachable (row : Row) : Row :=
  { row with message2_sent := str "TRUE", status := str "unreachable" }

/-- Row mutation of recruiter_bot's first-stage success
(src/recruiter_bot.py:239-241): no status change. -/
def rbApplyFirstSent (today : Str) (row : Row) : Row :=
  { row with message1_sent := str "TRUE", last_contacted := today }

/-- Row mutation of recruiter_bot's follow-up success
(src/recruiter_bot.py:279-281): no status change. -/
def rbApplyFollowSent (today : PyDate) (row : Row) : Row :=
  { row with message2_sent := str "TRUE", last_contacted := isoFormat today }

/-- Loop of `run_first_messages` (src/job_automation_app.py:839-876).
`oc i row` is the oracle for what `send_connection_message` returns on the
row at index `i`; `count` counts sent outcomes only and the loop breaks
when it reaches the quota `Q`, leaving the remaining rows untouched. -/
def runFirstAux (Q : Nat) (today : Str) (oc : Nat → Row → Outcome) :
    Nat → Nat → List Row → List Step
  | _, _, [] => []
  | i, count, row :: rest =>
    if Q ≤ count then (row :: rest).map (fun r => ⟨r, r, none⟩)
    else if firstEligible row then
      match oc i row with
      | Outcome.sent =>
        ⟨row, applyFirstSent today row, some Outcome.sent⟩ ::
          runFirstAux Q today oc (i + 1) (count + 1) rest
      | Outcome.unreachable =>
        ⟨row, applyFirstUnreachable row, some Outcome.unreachable⟩ ::
          runFirstAux Q today oc (i + 1) count rest
      | Outcome.skip =>
        ⟨row, row, some Outcome.skip⟩ :: runFirstAux Q today oc (i + 1) count rest
    else ⟨row, row, none⟩ :: runFirstAux Q today oc (i + 1) count rest

/-- `run_first_messages` (src/job_automation_app.py:830) as a trace of the
stored rows. -/
def run_first_messages (Q : Nat) (today : Str) (oc : Nat → Row → Outcome)
    (records : List Row) : List Step :=
  runFirstAux Q today oc 0 0 records

/-- Loop of `run_followups` (src/job_automation_app.py:890-928). -/
def runFollowAux (Q W : Nat) (today : PyDate) (oc : Nat → Row → Outcome) :
    Nat → Nat → List Row → List Step
  | _, _, [] => []
  | i, count, row :: rest =>
    if Q ≤ count then (row :: rest).map (fun r => ⟨r, r, none⟩)
    else if followEligible today W row then
      match oc i row with
      | Outcome.sent =>
        ⟨row, applyFollowSent today row, some Outcome.sent⟩ ::
          runFollowAux Q W today oc (i + 1) (count + 1) rest
      | Outcome.unreachable =>
        ⟨row, applyFollowUnreachable row, some Outcome.unreachable⟩ ::
          runFollowAux Q W today oc (i + 1) count rest
      | Outcome.skip =>
        ⟨row, row, some Outcome.skip⟩ :: runFollowAux Q W today oc (i + 1) count rest
    else ⟨row, row, none⟩ :: runFollowAux Q W today oc (i + 1) count rest

/-- `run_followups` (src/job_automation_app.py:881) as a trace. -/
def run_followups (Q W : Nat) (today : PyDate) (oc : Nat → Row → Outcome)
    (records : List Row) : List Step :=
  runFollowAux Q W today oc 0 0 records

/-- Loop of recruiter_bot's `run_first_messages`
(src/recruiter_bot.py:219-245): same eligibility, boolean send result, and
on success only `message1_sent` and `last_contacted` are written. -/
def rbRunFirstAux (Q : Nat) (today : Str) (ok : Nat → Row → Bool) :
    Nat → Nat → List Row → List RbStep
  | _, _, [] => []
  | i, count, row :: rest =>
    if Q ≤ count then (row :: rest).map (fun r => ⟨r, r, none⟩)
    else if firstEligible row then
      if ok i row then
        ⟨row, rbApplyFirstSent today row, some true⟩ ::
          rbRunFirstAux Q today ok (i + 1) (count + 1) rest
      else ⟨row, row, some false⟩ :: rbRunFirstAux Q today ok (i + 1) count rest
    else ⟨row, row, none⟩ :: rbRunFirstAux Q today ok (i + 1) count rest

/-- recruiter_bot's `run_first_messages` (src/recruiter_bot.py:219). -/
def rb_run_first_messages (Q : Nat) (today : Str) (ok : Nat → Row → Bool)
    (records : List Row) : List RbStep :=
  rbRunFirstAux Q today ok 0 0 records

/-- Loop of recruiter_bot's `run_followups` (src/recruiter_bot.py:251-285). -/
def rbRunFollowAux (Q W : Nat) (today : PyDate) (ok : Nat → Row → Bool) :
    Nat → Nat → List Row → List RbStep
  | _, _, [] => []
  | i, count, row :: rest =>
    if Q ≤ count then (row :: rest).map (fun r => ⟨r, r, none⟩)
    else if followEligible today W row then
      if ok i row then
        ⟨row, rbApplyFollowSent today row, some true⟩ ::
          rbRunFollowAux Q W today ok (i + 1) (count + 1) rest
      else ⟨row, row, some false⟩ :: rbRunFollowAux Q W today ok (i + 1) count rest
    else ⟨row, row, none⟩ :: rbRunFollowAux Q W today ok (i + 1) count rest

/-- recruiter_bot's `run_followups` (src/recruiter_bot.py:251). -/
def rb_run_followups (Q W : Nat) (today : PyDate) (ok : Nat → Row → Bool)
    (records : List Row) : List RbStep :=
  rbRunFollowAux Q W today ok 0 0 records

/-- Number of sent outcomes in a trace (the quantity the code's `count`
variable tracks). -/
def sentCount (steps : List Step) : Nat :=
  steps.countP (fun s => s.att == some Outcome.sent)

/-- Number of rows whose status changed to `connected` or `unreachable`
during the run. -/
def termTransitions (steps : List Step) : Nat :=
  steps.countP (fun s =>
    ((s.new.status == str "connected") || (s.new.status == str "unreachable")) &&
    !(s.old.status == s.new.status))

/-! ## Ingestion (src/job_automation_app.py:410-473,
src/autofill_from_jobright.py:207-246) -/

/-- A scraped recruiter candidate (`extract_recruiters_from_jobright` /
`scrape_jobright_page` / `scrape_linkedin_job_page` output record). -/
structure Candidate where
  recruiter_name : Str
  job_title : Str
  company : Str
  linkedin_url : Str
  notes : Str
deriving DecidableEq, Repr

/-- The row `append_recruiter_row` (src/job_automation_app.py:127) appends
for a candidate processed under job page `url`. -/
def mkExtractRow (c : Candidate) (url : Str) : Row :=
  { recruiter_name := c.recruiter_name, job_title := c.job_title,
    company := c.company, linkedin_url := c.linkedin_url,
    status := str "pending", message1_sent := [], message2_sent := [],
    last_contacted := [], notes := c.notes, job_url := url }

/-- The row the autofill script's `append_recruiter_row`
(src/autofill_from_jobright.py:34) appends: only nine columns, no
`job_url`. -/
def mkAutofillRow (c : Candidate) : Row :=
  { recruiter_name := c.recruiter_name, job_title := c.job_title,
    company := c.company, linkedin_url := c.linkedin_url,
    status := str "pending", message1_sent := [], message2_sent := [],
    last_contacted := [], notes := c.notes, job_url := [] }

/-- The seen-set built from the existing store for one column
(src/job_automation_app.py:431-437): stripped, empty values dropped. -/
def existingSet (f : Row → Str) (records : List Row) : List Str :=
  records.filterMap fun r =>
    let v := pyStrip (f r)
    if v = [] then none else some v

/-- Inner candidate loop of `run_extract_recruiters`
(src/job_automation_app.py:452-467): candidates with an empty stripped
`linkedin_url` are dropped, already-seen LinkedIn URLs are skipped, and on
each append both in-memory seen-sets are extended.  Returns the appended
rows and the extended job/LinkedIn seen-sets. -/
def processRecs (url : Str) :
    List Candidate → List Str → List Str → (List Row × List Str × List Str)
  | [], js, ls => ([], js, ls)
  | c :: more, js, ls =>
    let lu := pyStrip c.linkedin_url
    if lu = [] then processRecs url more js ls
    else if lu ∈ ls then processRecs url more js ls
    else
      let rest := processRecs url more (url :: js) (lu :: ls)
      (mkExtractRow c url :: rest.1, rest.2.1, rest.2.2)

/-- Outer URL loop of `run_extract_recruiters`
(src/job_automation_app.py:445-467): URLs already in the job seen-set are
skipped entirely.  `recsFor` is the oracle for
`extract_recruiters_from_jobright`. -/
def ingestUrls (recsFor : Str → List Candidate) :
    List Str → List Str → List Str → (List Row × List Str × List Str)
  | [], js, ls => ([], js, ls)
  | url :: rest, js, ls =>
    if url ∈ js then ingestUrls recsFor rest js ls
    else
      let p := processRecs url (recsFor url) js ls
      let q := ingestUrls recsFor rest p.2.1 p.2.2
      (p.1 ++ q.1, q.2.1, q.2.2)

/-- `run_extract_recruiters` (src/job_automation_app.py:410): the rows
appended to the store during one run, given the existing store contents,
the saved applied-job URLs, and the scrape oracle. -/
def run_extract_recruiters (records : List Row) (urls : List Str)
    (recsFor : Str → List Candidate) : List Row :=
  (ingestUrls recsFor urls
    (existingSet (fun r => r.job_url) records)
    (existingSet (fun r => r.linkedin_url) records)).1

/-- `main` of src/autofill_from_jobright.py:207: every scraped candidate of
every supported URL is appended, with no deduplication of any kind; the
result is the full store after the run. -/
def autofill_main (records : List Row) (urls : List Str)
    (recsFor : Str → List Candidate) : List Row :=
  records ++ urls.flatMap fun u =>
    if strContains (str "jobright.ai") u || strContains (str "linkedin.com/jobs") u
    then (recsFor u).map mkAutofillRow
    else []

/-- Number of rows whose status changed to `connected` during the run. -/
def connTransitions (steps : List Step) : Nat :=
  steps.countP (fun s =>
    (s.new.status == str "connected") && !(s.old.status == s.new.status))

/-! ## Concrete store contents and pages used to evaluate the claims -/

/-- A fresh pending row, as ingestion creates it. -/
def baseRow : Row :=
  { recruiter_name := str "Alice Smith", job_title := str "Data Analyst",
    company := str "Acme", linkedin_url := str "https://www.linkedin.com/in/alice",
    status := str "pending", message1_sent := [], message2_sent := [],
    last_contacted := [], notes := [], job_url := [] }

/-- A row that already received its first message eleven days before the
example "today" `exToday`. -/
def followRow : Row :=
  { baseRow with message1_sent := str "TRUE", last_contacted := str "2026-10-01" }

/-- A terminal row. -/
def unreachableRow : Row := { baseRow with status := str "unreachable" }

/-- A row whose `message1_sent` normalizes (uppercases) to `YES`. -/
def m1YesRow : Row := { baseRow with message1_sent := str "yes" }

/-- Example run date as a string (first-message runs). -/
def exTodayStr : Str := str "2026-10-12"

/-- Example run date as a date (follow-up runs). -/
def exToday : PyDate := ⟨2026, 10, 12⟩

/-- A profile page whose on-page h1 name differs from the record's
recruiter name. -/
def mismatchPage : ProfilePage :=
  { h1Text := some (str "Bob Jones"), headerTexts := [str "Bob Jones"],
    bodyText := [], modalHeaders := [] }

/-- A profile page with no extractable h1 and headers that do not contain
the record's name anywhere. -/
def unverifiedPage : ProfilePage :=
  { h1Text := none, headerTexts := [str "Someone Else"],
    bodyText := str "nothing here", modalHeaders := [] }

/-- A profile offering connect with a note affordance. -/
def noteAff : Affordances :=
  { connectVisible := true, noteButtonVisible := true, editorVisible := true,
    messageVisible := false, followVisible := false }

/-- A profile with a connect action that yields no note capability, next to
a message action. -/
def connectNoNoteAff : Affordances :=
  { connectVisible := true, noteButtonVisible := false, editorVisible := false,
    messageVisible := true, followVisible := false }

/-- A profile with no connect action but a message action. -/
def messageOnlyAff : Affordances :=
  { connectVisible := false, noteButtonVisible := false, editorVisible := false,
    messageVisible := true, followVisible := false }

/-- A note text one character over the default ceiling whose character at
cut position 297 is a space, so the rstrip after the cut shortens it. -/
def overlongNote : Str := List.replicate 296 'a' ++ ' ' :: List.replicate 4 'b'

/-- A scraped candidate with a LinkedIn profile URL. -/
def exCand : Candidate :=
  ⟨str "Rae Doe", str "Data Analyst", str "Acme",
   str "https://www.linkedin.com/in/rae", str "Auto-filled from JobRight"⟩

/-- An applied-job URL of the supported jobright kind. -/
def exJobUrl : Str := str "https://jobright.ai/jobs/info/1"
/-- Case analysis for any step of a first-message run: either the row was
not attempted and is unchanged, or it was eligible and mutated according to
its outcome. -/
theorem runFirstAux_mem (Q : Nat) (today : Str) (oc : Nat → Row → Outcome) :
    ∀ (rows : List Row) (i count : Nat) (s : Step),
      s ∈ runFirstAux Q today oc i count rows →
      (s.att = none ∧ s.new = s.old) ∨
      (firstEligible s.old = true ∧
        ((s.att = some Outcome.sent ∧ s.new = applyFirstSent today s.old) ∨
         (s.att = some Outcome.unreachable ∧ s.new = applyFirstUnreachable s.old) ∨
         (s.att = some Outcome.skip ∧ s.new = s.old))) := by
  intro rows
  induction rows with
  | nil => intro i count s hs; simp [runFirstAux] at hs
  | cons row rest ih =>
    intro i count s hs
    rw [runFirstAux] at hs
    by_cases hq : Q ≤ count
    · rw [if_pos hq] at hs
      rcases List.mem_map.mp hs with ⟨r, _, rfl⟩
      exact Or.inl ⟨rfl, rfl⟩
    · rw [if_neg hq] at hs
      by_cases he : firstEligible row
      · rw [if_pos he] at hs
        cases hoc : oc i row <;> rw [hoc] at hs <;>
          rcases List.mem_cons.mp hs with rfl | hmem
        · exact Or.inr ⟨he, Or.inl ⟨rfl, rfl⟩⟩
        · exact ih _ _ _ hmem
        · exact Or.inr ⟨he, Or.inr (Or.inl ⟨rfl, rfl⟩)⟩
        · exact ih _ _ _ hmem
        · exact Or.inr ⟨he, Or.inr (Or.inr ⟨rfl, rfl⟩)⟩
        · exact ih _ _ _ hmem
      · rw [if_neg he] at hs
        rcases List.mem_cons.mp hs with rfl | hmem
        · exact Or.inl ⟨rfl, rfl⟩
        · exact ih _ _ _ hmem

theorem runFollowAux_mem (Q W : Nat) (today : PyDate) (oc : Nat → Row → Outcome) :
    ∀ (rows : List Row) (i count : Nat) (s : Step),
      s ∈ runFollowAux Q W today oc i count rows →
      (s.att = none ∧ s.new = s.old) ∨
      (followEligible today W s.old = true ∧
        ((s.att = some Outcome.sent ∧ s.new = applyFollowSent today s.old) ∨
         (s.att = some Outcome.unreachable ∧ s.new = applyFollowUnreachable s.old) ∨
         (s.att = some Outcome.skip ∧ s.new = s.old))) := by
  intro rows
  induction rows with
  | nil => intro i count s hs; simp [runFollowAux] at hs
  | cons row rest ih =>
    intro i count s hs
    rw [runFollowAux] at hs
    by_cases hq : Q ≤ count
    · rw [if_pos hq] at hs
      rcases List.mem_map.mp hs with ⟨r, _, rfl⟩
      exact Or.inl ⟨rfl, rfl⟩
    · rw [if_neg hq] at hs
      by_cases he : followEligible today W row
      · rw [if_pos he] at hs
        cases hoc : oc i row <;> rw [hoc] at hs <;>
          rcases List.mem_cons.mp hs with rfl | hmem
        · exact Or.inr ⟨he, Or.inl ⟨rfl, rfl⟩⟩
        · exact ih _ _ _ hmem
        · exact Or.inr ⟨he, Or.inr (Or.inl ⟨rfl, rfl⟩)⟩
        · exact ih _ _ _ hmem
        · exact Or.inr ⟨he, Or.inr (Or.inr ⟨rfl, rfl⟩)⟩
        · exact ih _ _ _ hmem
      · rw [if_neg he] at hs
        rcases List.mem_cons.mp hs with rfl | hmem
        · exact Or.inl ⟨rfl, rfl⟩
        · exact ih _ _ _ hmem

theorem rbRunFirstAux_mem (Q : Nat) (today : Str) (ok : Nat → Row → Bool) :
    ∀ (rows : List Row) (i count : Nat) (s : RbStep),
      s ∈ rbRunFirstAux Q today ok i count rows →
      (s.att = none ∧ s.new = s.old) ∨
      (firstEligible s.old = true ∧
        ((s.att = some true ∧ s.new = rbApplyFirstSent today s.old) ∨
         (s.att = some false ∧ s.new = s.old))) := by
  intro rows
  induction rows with
  | nil => intro i count s hs; simp [rbRunFirstAux] at hs
  | cons row rest ih =>
    intro i count s hs
    rw [rbRunFirstAux] at hs
    by_cases hq : Q ≤ count
    · rw [if_pos hq] at hs
      rcases List.mem_map.mp hs with ⟨r, _, rfl⟩
      exact Or.inl ⟨rfl, rfl⟩
    · rw [if_neg hq] at hs
      by_cases he : firstEligible row
      · rw [if_pos he] at hs
        by_cases hok : ok i row
        · rw [if_pos hok] at hs
          rcases List.mem_cons.mp hs with rfl | hmem
          · exact Or.inr ⟨he, Or.inl ⟨rfl, rfl⟩⟩
          · exact ih _ _ _ hmem
        · rw [if_neg hok] at hs
          rcases List.mem_cons.mp hs with rfl | hmem
          · exact Or.inr ⟨he, Or.inr ⟨rfl, rfl⟩⟩
          · exact ih _ _ _ hmem
      · rw [if_neg he] at hs
        rcases List.mem_cons.mp hs with rfl | hmem
        · exact Or.inl ⟨rfl, rfl⟩
        · exact ih _ _ _ hmem

theorem rbRunFollowAux_mem (Q W : Nat) (today : PyDate) (ok : Nat → Row → Bool) :
    ∀ (rows : List Row) (i count : Nat) (s : RbStep),
      s ∈ rbRunFollowAux Q W today ok i count rows →
      (s.att = none ∧ s.new = s.old) ∨
      (followEligible today W s.old = true ∧
        ((s.att = some true ∧ s.new = rbApplyFollowSent today s.old) ∨
         (s.att = some false ∧ s.new = s.old))) := by
  intro rows
  induction rows with
  | nil => intro i count s hs; simp [rbRunFollowAux] at hs
  | cons row rest ih =>
    intro i count s hs
    rw [rbRunFollowAux] at hs
    by_cases hq : Q ≤ count
    · rw [if_pos hq] at hs
      rcases List.mem_map.mp hs with ⟨r, _, rfl⟩
      exact Or.inl ⟨rfl, rfl⟩
    · rw [if_neg hq] at hs
      by_cases he : followEligible today W row
      · rw [if_pos he] at hs
        by_cases hok : ok i row
        · rw [if_pos hok] at hs
          rcases List.mem_cons.mp hs with rfl | hmem
          · exact Or.inr ⟨he, Or.inl ⟨rfl, rfl⟩⟩
          · exact ih _ _ _ hmem
        · rw [if_neg hok] at hs
          rcases List.mem_cons.mp hs with rfl | hmem
          · exact Or.inr ⟨he, Or.inr ⟨rfl, rfl⟩⟩
          · exact ih _ _ _ hmem
      · rw [if_neg he] at hs
        rcases List.mem_cons.mp hs with rfl | hmem
        · exact Or.inl ⟨rfl, rfl⟩
        · exact ih _ _ _ hmem

theorem sentCount_untouched (l : List Row) :
    sentCount (l.map fun r => Step.mk r r none) = 0 := by
  induction l with
  | nil => rfl
  | cons a l ih => simp [sentCount, List.countP_cons, ih]

theorem sentCount_cons_sent (row new : Row) (l : List Step) :
    sentCount (⟨row, new, some Outcome.sent⟩ :: l) = sentCount l + 1 := by
  simp [sentCount, List.countP_cons]

theorem sentCount_cons_other (row new : Row) (o : Option Outcome)
    (ho : o ≠ some Outcome.sent) (l : List Step) :
    sentCount (⟨row, new, o⟩ :: l) = sentCount l := by
  simp [sentCount, List.countP_cons, beq_iff_eq, ho]

theorem sentCount_runFirstAux_le (Q : Nat) (today : Str) (oc : Nat → Row → Outcome) :
    ∀ (rows : List Row) (i count : Nat),
      sentCount (runFirstAux Q today oc i count rows) ≤ Q - count := by
  intro rows
  induction rows with
  | nil => intro i count; simp [runFirstAux, sentCount]
  | cons row rest ih =>
    intro i count
    rw [runFirstAux]
    by_cases hq : Q ≤ count
    · rw [if_pos hq, sentCount_untouched]; omega
    · rw [if_neg hq]
      by_cases he : firstEligible row
      · rw [if_pos he]
        cases oc i row
        · rw [sentCount_cons_sent]
          have := ih (i + 1) (count + 1)
          omega
        · rw [sentCount_cons_other _ _ _ (by simp)]
          have := ih (i + 1) count
          omega
        · rw [sentCount_cons_other _ _ _ (by simp)]
          have := ih (i + 1) count
          omega
      · rw [if_neg he, sentCount_cons_other _ _ _ (by simp)]
        have := ih (i + 1) count
        omega

theorem sentCount_runFollowAux_le (Q W : Nat) (today : PyDate) (oc : Nat → Row → Outcome) :
    ∀ (rows : List Row) (i count : Nat),
      sentCount (runFollowAux Q W today oc i count rows) ≤ Q - count := by
  intro rows
  induction rows with
  | nil => intro i count; simp [runFollowAux, sentCount]
  | cons row rest ih =>
    intro i count
    rw [runFollowAux]
    by_cases hq : Q ≤ count
    · rw [if_pos hq, sentCount_untouched]; omega
    · rw [if_neg hq]
      by_cases he : followEligible today W row
      · rw [if_pos he]
        cases oc i row
        · rw [sentCount_cons_sent]
          have := ih (i + 1) (count + 1)
          omega
        · rw [sentCount_cons_other _ _ _ (by simp)]
          have := ih (i + 1) count
          omega
        · rw [sentCount_cons_other _ _ _ (by simp)]
          have := ih (i + 1) count
          omega
      · rw [if_neg he, sentCount_cons_other _ _ _ (by simp)]
        have := ih (i + 1) count
        omega

theorem firstEligible_iff (row : Row) :
    firstEligible row = true ↔
      (pyLower row.status = str "pending" ∧
       pyUpper row.message1_sent ≠ str "TRUE" ∧
       pyUpper row.message1_sent ≠ str "YES") := by
  unfold firstEligible
  simp [Bool.and_eq_true, Bool.not_eq_true, Bool.or_eq_false_iff,
        beq_iff_eq, beq_eq_false_iff_ne, not_or]

theorem fromIsoFormat_ne_nil {lc : Str} {d : PyDate}
    (h : fromIsoFormat lc = some d) : lc ≠ [] := by
  intro hnil
  rw [hnil] at h
  simp [fromIsoFormat] at h

theorem lastOkB_iff (today : PyDate) (W : Nat) (lc : Str) :
    lastOkB today W lc = true ↔
      ∃ d, fromIsoFormat lc = some d ∧
        (W : Int) ≤ (toOrdinal today : Int) - (toOrdinal d : Int) := by
  unfold lastOkB
  rcases h : fromIsoFormat lc with _ | d <;> simp [h]

theorem followEligible_iff (today : PyDate) (W : Nat) (row : Row) :
    followEligible today W row = true ↔
      ((pyLower row.status = str "pending" ∨ pyLower row.status = str "connected") ∧
       pyUpper row.message1_sent = str "TRUE" ∧
       pyUpper row.message2_sent ≠ str "TRUE" ∧
       ∃ d, fromIsoFormat row.last_contacted = some d ∧
         (W : Int) ≤ (toOrdinal today : Int) - (toOrdinal d : Int)) := by
  unfold followEligible
  simp only [Bool.and_eq_true, Bool.or_eq_true, Bool.not_eq_true',
             beq_iff_eq, beq_eq_false_iff_ne, lastOkB_iff]
  constructor
  · rintro ⟨⟨⟨⟨h1, h2⟩, h3⟩, _⟩, h5⟩
    exact ⟨h1, h2, h3, h5⟩
  · rintro ⟨h1, h2, h3, d, hd, hw⟩
    exact ⟨⟨⟨⟨h1, h2⟩, h3⟩, fromIsoFormat_ne_nil hd⟩, d, hd, hw⟩

theorem connTransitions_cons_le (s : Step) (l : List Step) :
    connTransitions (s :: l) ≤ connTransitions l + 1 := by
  unfold connTransitions
  rw [List.countP_cons]
  split <;> omega

theorem connTransitions_cons_same (s : Step) (h : s.new = s.old) (l : List Step) :
    connTransitions (s :: l) = connTransitions l := by
  unfold connTransitions
  rw [List.countP_cons, h]
  simp

theorem connTransitions_cons_unreachable (row : Row) (l : List Step) :
    connTransitions (⟨row, applyFirstUnreachable row, some Outcome.unreachable⟩ :: l) =
      connTransitions l := by
  have h : ((applyFirstUnreachable row).status == str "connected") = false := rfl
  unfold connTransitions
  rw [List.countP_cons]
  simp [h]

theorem connTransitions_untouched (l : List Row) :
    connTransitions (l.map fun r => Step.mk r r none) = 0 := by
  induction l with
  | nil => rfl
  | cons a l ih => simp [connTransitions, List.countP_cons, ih]

theorem connTransitions_runFirstAux_le (Q : Nat) (today : Str) (oc : Nat → Row → Outcome) :
    ∀ (rows : List Row) (i count : Nat),
      connTransitions (runFirstAux Q today oc i count rows) ≤ Q - count := by
  intro rows
  induction rows with
  | nil => intro i count; simp [runFirstAux, connTransitions]
  | cons row rest ih =>
    intro i count
    rw [runFirstAux]
    by_cases hq : Q ≤ count
    · rw [if_pos hq, connTransitions_untouched]; omega
    · rw [if_neg hq]
      by_cases he : firstEligible row
      · rw [if_pos he]
        cases oc i row
        · refine le_trans (connTransitions_cons_le _ _) ?_
          have := ih (i + 1) (count + 1)
          omega
        · rw [connTransitions_cons_unreachable]
          have := ih (i + 1) count
          omega
        · rw [connTransitions_cons_same _ rfl]
          have := ih (i + 1) count
          omega
      · rw [if_neg he, connTransitions_cons_same _ rfl]
        have := ih (i + 1) count
        omega

theorem processRecs_spec (url : Str) (cs : List Candidate) :
    ∀ (js ls : List Str),
      (∀ r ∈ (processRecs url cs js ls).1,
          pyStrip r.linkedin_url ≠ [] ∧ pyStrip r.linkedin_url ∉ ls ∧
          r.job_url = url ∧
          pyStrip r.linkedin_url ∈ (processRecs url cs js ls).2.2) ∧
      (processRecs url cs js ls).1.Pairwise
        (fun a b => pyStrip a.linkedin_url ≠ pyStrip b.linkedin_url) ∧
      (∀ x ∈ ls, x ∈ (processRecs url cs js ls).2.2) ∧
      (∀ x ∈ js, x ∈ (processRecs url cs js ls).2.1) := by
  induction cs with
  | nil =>
    intro js ls
    simp [processRecs]
  | cons c more ih =>
    intro js ls
    simp only [processRecs]
    by_cases h1 : pyStrip c.linkedin_url = []
    · rw [if_pos h1]; exact ih js ls
    · rw [if_neg h1]
      by_cases h2 : pyStrip c.linkedin_url ∈ ls
      · rw [if_pos h2]; exact ih js ls
      · rw [if_neg h2]
        obtain ⟨ih1, ih2, ih3, ih4⟩ := ih (url :: js) (pyStrip c.linkedin_url :: ls)
        refine ⟨?_, ?_, ?_, ?_⟩
        · intro r hr
          rcases List.mem_cons.mp hr with rfl | hr
          · exact ⟨h1, h2, rfl, ih3 _ (List.mem_cons_self _ _)⟩
          · obtain ⟨a1, a2, a3, a4⟩ := ih1 r hr
            exact ⟨a1, fun hx => a2 (List.mem_cons_of_mem _ hx), a3, a4⟩
        · refine List.Pairwise.cons ?_ ih2
          intro b hb
          obtain ⟨_, b2, _, _⟩ := ih1 b hb
          intro hcontra
          exact b2 (hcontra ▸ List.mem_cons_self _ _)
        · intro x hx
          exact ih3 _ (List.mem_cons_of_mem _ hx)
        · intro x hx
          exact ih4 _ (List.mem_cons_of_mem _ hx)

theorem ingestUrls_spec (recsFor : Str → List Candidate) (urls : List Str) :
    ∀ (js ls : List Str),
      (∀ r ∈ (ingestUrls recsFor urls js ls).1,
          pyStrip r.linkedin_url ≠ [] ∧ pyStrip r.linkedin_url ∉ ls ∧
          r.job_url ∉ js ∧
          pyStrip r.linkedin_url ∈ (ingestUrls recsFor urls js ls).2.2) ∧
      (ingestUrls recsFor urls js ls).1.Pairwise
        (fun a b => pyStrip a.linkedin_url ≠ pyStrip b.linkedin_url) ∧
      (∀ x ∈ ls, x ∈ (ingestUrls recsFor urls js ls).2.2) ∧
      (∀ x ∈ js, x ∈ (ingestUrls recsFor urls js ls).2.1) := by
  induction urls with
  | nil =>
    intro js ls
    simp [ingestUrls]
  | cons url rest ih =>
    intro js ls
    simp only [ingestUrls]
    by_cases hu : url ∈ js
    · rw [if_pos hu]; exact ih js ls
    · rw [if_neg hu]
      obtain ⟨p1, p2, p3, p4⟩ := processRecs_spec url (recsFor url) js ls
      obtain ⟨q1, q2, q3, q4⟩ :=
        ih (processRecs url (recsFor url) js ls).2.1
           (processRecs url (recsFor url) js ls).2.2
      refine ⟨?_, ?_, ?_, ?_⟩
      · intro r hr
        rcases List.mem_append.mp hr with hr | hr
        · obtain ⟨a1, a2, a3, a4⟩ := p1 r hr
          exact ⟨a1, a2, a3 ▸ hu, q3 _ a4⟩
        · obtain ⟨a1, a2, a3, a4⟩ := q1 r hr
          refine ⟨a1, fun hx => a2 (p3 _ hx), fun hx => a3 (p4 _ hx), a4⟩
      · rw [List.pairwise_append]
        refine ⟨p2, q2, ?_⟩
        intro a ha b hb
        obtain ⟨_, _, _, a4⟩ := p1 a ha
        obtain ⟨_, b2, _, _⟩ := q1 b hb
        intro hcontra
        exact b2 (hcontra ▸ a4)
      · intro x hx
        exact q3 _ (p3 _ hx)
      · intro x hx
        exact q4 _ (p4 _ hx)

theorem length_dropWhile_le_self (p : Char → Bool) (l : Str) :
    (l.dropWhile p).length ≤ l.length := by
  induction l with
  | nil => simp
  | cons a l ih =>
    rw [List.dropWhile_cons]
    split
    · simp only [List.length_cons]; omega
    · simp

theorem pyRStrip_length_le (s : Str) : (pyRStrip s).length ≤ s.length := by
  unfold pyRStrip
  rw [List.length_reverse]
  calc (s.reverse.dropWhile isPySpace).length
      ≤ s.reverse.length := length_dropWhile_le_self _ _
    _ = s.length := List.length_reverse _

/-! ## Claims -/

/-- Claim C1, counterexample: with quota 1, a first-message run over two
eligible rows whose attempts both come back UNREACHABLE transitions two
rows to a terminal status — more than the quota — because the code's
counter increments only on a sent outcome. -/
theorem quota_claim_counterexample :
    ¬ termTransitions
        (run_first_messages 1 exTodayStr (fun _ _ => Outcome.unreachable)
          [baseRow, baseRow]) ≤ 1 := by decide

/-- Claim C1, amended: in any run, the number of sent outcomes is at most
the quota (safety-skips and unreachable outcomes are not counted by the
code's counter), and in a first-message run the number of rows transitioned
to `connected` is at most the quota; rows transitioned to `unreachable`
are not bounded by the quota. -/
theorem quota_amended (Q : Nat) (today : Str) (oc : Nat → Row → Outcome)
    (rows : List Row) (QF W : Nat) (tF : PyDate) (ocF : Nat → Row → Outcome)
    (rowsF : List Row) :
    sentCount (run_first_messages Q today oc rows) ≤ Q ∧
    connTransitions (run_first_messages Q today oc rows) ≤ Q ∧
    sentCount (run_followups QF W tF ocF rowsF) ≤ QF := by
  refine ⟨?_, ?_, ?_⟩
  · have h := sentCount_runFirstAux_le Q today oc rows 0 0
    unfold run_first_messages
    omega
  · have h := connTransitions_runFirstAux_le Q today oc rows 0 0
    unfold run_first_messages
    omega
  · have h := sentCount_runFollowAux_le QF W tF ocF rowsF 0 0
    unfold run_followups
    omega

/-- Claim C2, counterexample: the record's recruiter name is "Alice Smith"
(not a generic placeholder), the opened page's h1 reads "Bob Jones", and
the normalized record name occurs neither in the header texts nor in the
body; yet the attempt sends (returns True), because the code replaces the
expected name by the on-page h1 name before verifying. -/
theorem identity_claim_counterexample :
    send_connection_message baseRow mismatchPage noteAff true = SendResult.ok ∧
    isGenericName (pyStrip baseRow.recruiter_name) = false ∧
    strContains (normalize_name (pyStrip baseRow.recruiter_name))
      (normalize_name (str "Bob Jones")) = false ∧
    strContains (normalize_name (pyStrip baseRow.recruiter_name))
      (pyLower mismatchPage.bodyText) = false := by decide

/-- Claim C2, amended: the name used for safety checks is the on-page h1
profile name when one is extracted, the record's recruiter name otherwise.
If that effective name is not a generic placeholder and fails
`verify_profile_loaded` (no normalized-substring match in a header text or
in the lowercased body), the outcome is the safety block `False` and no
send occurs; a sent outcome implies the effective name was generic or
verified. -/
theorem identity_amended (row : Row) (page : ProfilePage) (a : Affordances)
    (sendOk : Bool) (hurl : row.linkedin_url ≠ []) :
    (isGenericName (effective_expected_name row page) = false →
      verify_profile_loaded page (effective_expected_name row page) = false →
      send_connection_message row page a sendOk = SendResult.failed) ∧
    (send_connection_message row page a sendOk = SendResult.ok →
      isGenericName (effective_expected_name row page) = true ∨
      verify_profile_loaded page (effective_expected_name row page) = true) := by
  constructor
  · intro hg hv
    unfold send_connection_message
    rw [if_neg hurl]
    simp [hg, hv]
  · intro hok
    by_cases hg : isGenericName (effective_expected_name row page)
    · exact Or.inl hg
    · by_cases hv : verify_profile_loaded page (effective_expected_name row page)
      · exact Or.inr hv
      · exfalso
        unfold send_connection_message at hok
        rw [if_neg hurl] at hok
        simp [hg, hv] at hok

/-- Claim C2 witness: a non-generic unverifiable profile is safety-blocked. -/
theorem identity_amended_witness :
    send_connection_message baseRow unverifiedPage noteAff true = SendResult.failed :=
  (identity_amended baseRow unverifiedPage noteAff true (by decide)).1
    (by decide) (by decide)

/-- Claim C3, counterexample: with a visible connect action that yields no
note capability and a visible message action, `open_message_or_connect`
returns "follow_only" and never the "message" channel. -/
theorem channel_claim_counterexample :
    open_message_or_connect connectNoNoteAff = some Channel.followOnly ∧
    open_message_or_connect connectNoNoteAff ≠ some Channel.message := by decide

/-- Claim C3, amended: a connect action that yields no note capability
makes the protocol report "follow_only" (treated as unreachable) without
invoking the message action; the direct-message action is invoked, with
channel = message, only when no connect action is present and a
message-type action is. -/
theorem channel_amended (a : Affordances) :
    (a.connectVisible = true → a.noteButtonVisible = false →
      a.editorVisible = false →
      open_message_or_connect a = some Channel.followOnly) ∧
    (a.connectVisible = false → a.messageVisible = true →
      open_message_or_connect a = some Channel.message) := by
  constructor
  · intro h1 h2 h3
    simp [open_message_or_connect, h1, h2, h3]
  · intro h1 h2
    simp [open_message_or_connect, h1, h2]

/-- Claim C3 witness: both amended branches at concrete affordances. -/
theorem channel_amended_witness :
    open_message_or_connect connectNoNoteAff = some Channel.followOnly ∧
    open_message_or_connect messageOnlyAff = some Channel.message :=
  ⟨(channel_amended connectNoNoteAff).1 rfl rfl rfl,
   (channel_amended messageOnlyAff).2 rfl rfl⟩

set_option maxRecDepth 8000 in
/-- Claim C4, counterexample: a 301-character text over the 300 ceiling
whose note comes out 299 characters long, not exactly 300, because the code
right-strips the truncated prefix before appending "...". -/
theorem truncation_claim_counterexample :
    overlongNote.length = 301 ∧
    (shorten_for_note overlongNote 300).length = 299 := by decide

/-- Claim C4, amended: `shorten_for_note` first strips the text; a stripped
text within the ceiling is returned as-is (so the original is sent
unmodified only up to stripping), and a longer one becomes the right-strip
of its first `ceiling - 3` characters plus the 3-character "...", for a
total length of at most — not exactly — the ceiling. -/
theorem truncation_amended (text : Str) (limit : Nat) (h3 : 3 ≤ limit) :
    ((pyStrip text).length ≤ limit → shorten_for_note text limit = pyStrip text) ∧
    (limit < (pyStrip text).length →
      shorten_for_note text limit =
        pyRStrip ((pyStrip text).take (limit - 3)) ++ str "..." ∧
      (shorten_for_note text limit).length ≤ limit) := by
  constructor
  · intro h
    simp only [shorten_for_note]
    rw [if_pos h]
  · intro h
    have hn : ¬ (pyStrip text).length ≤ limit := by omega
    simp only [shorten_for_note]
    rw [if_neg hn]
    refine ⟨rfl, ?_⟩
    rw [List.length_append]
    have h1 : (pyRStrip ((pyStrip text).take (limit - 3))).length ≤ limit - 3 := by
      refine le_trans (pyRStrip_length_le _) ?_
      rw [List.length_take]
      omega
    have h2 : (str "...").length = 3 := rfl
    omega

/-- Claim C4 witness: a short text is returned stripped, unchanged
otherwise. -/
theorem truncation_amended_witness :
    shorten_for_note (str "  hi  ") 300 = pyStrip (str "  hi  ") :=
  (truncation_amended (str "  hi  ") 300 (by decide)).1 (by decide)

/-- Claim C5, counterexample: in recruiter_bot's first-message run a sent
attempt updates `message1_sent` and `last_contacted` but leaves `status`
as "pending" — it does not become "connected". -/
theorem sent_update_claim_counterexample :
    rb_run_first_messages 1 exTodayStr (fun _ _ => true) [baseRow] =
      [⟨baseRow, rbApplyFirstSent exTodayStr baseRow, some true⟩] ∧
    (rbApplyFirstSent exTodayStr baseRow).status = str "pending" ∧
    ¬ (rbApplyFirstSent exTodayStr baseRow).status = str "connected" := by decide

/-- Claim C5, amended: a sent first-stage attempt in
src/job_automation_app.py sets status to connected, message1_sent to TRUE
and last_contacted to today; in src/recruiter_bot.py it sets message1_sent
to TRUE and last_contacted to today but leaves status unchanged. -/
theorem sent_update_amended (Q : Nat) (today : Str) (oc : Nat → Row → Outcome)
    (rows : List Row) (Q2 : Nat) (t2 : Str) (ok2 : Nat → Row → Bool)
    (rows2 : List Row) (s : Step) (u : RbStep)
    (hs : s ∈ run_first_messages Q today oc rows)
    (hsent : s.att = some Outcome.sent)
    (hu : u ∈ rb_run_first_messages Q2 t2 ok2 rows2)
    (husent : u.att = some true) :
    s.new.status = str "connected" ∧ s.new.message1_sent = str "TRUE" ∧
    s.new.last_contacted = today ∧
    u.new.message1_sent = str "TRUE" ∧ u.new.last_contacted = t2 ∧
    u.new.status = u.old.status := by
  rcases runFirstAux_mem Q today oc rows 0 0 s hs with ⟨h1, _⟩ | ⟨_, hc⟩
  · rw [hsent] at h1; exact Option.noConfusion h1
  · rcases hc with ⟨ha, hnew⟩ | ⟨ha, _⟩ | ⟨ha, _⟩
    all_goals try (rw [hsent] at ha; simp at ha)
    rcases rbRunFirstAux_mem Q2 t2 ok2 rows2 0 0 u hu with ⟨h1, _⟩ | ⟨_, hc2⟩
    · rw [husent] at h1; exact Option.noConfusion h1
    · rcases hc2 with ⟨hb, hnew2⟩ | ⟨hb, _⟩
      · exact ⟨by rw [hnew]; rfl, by rw [hnew]; rfl, by rw [hnew]; rfl,
               by rw [hnew2]; rfl, by rw [hnew2]; rfl, by rw [hnew2]; rfl⟩
      · rw [husent] at hb; simp at hb

/-- Claim C5 witness: a concrete sent attempt in the streamlit app run
yields status connected. -/
theorem sent_update_amended_witness :
    (Step.mk baseRow (applyFirstSent exTodayStr baseRow)
      (some Outcome.sent)).new.status = str "connected" :=
  (sent_update_amended 1 exTodayStr (fun _ _ => Outcome.sent) [baseRow]
    1 exTodayStr (fun _ _ => true) [baseRow]
    ⟨baseRow, applyFirstSent exTodayStr baseRow, some Outcome.sent⟩
    ⟨baseRow, rbApplyFirstSent exTodayStr baseRow, some true⟩
    (by decide) rfl (by decide) rfl).1

/-- Claim C6 (confirmed): an attempt whose outcome is the safety-skip
`False` leaves the attempted row completely unmutated in both the
first-message and the follow-up run, so the record can be retried later. -/
theorem safety_skip_frame (Q : Nat) (today : Str) (oc : Nat → Row → Outcome)
    (rows : List Row) (QF W : Nat) (tF : PyDate) (ocF : Nat → Row → Outcome)
    (rowsF : List Row) (s t : Step)
    (hs : s ∈ run_first_messages Q today oc rows)
    (hsk : s.att = some Outcome.skip)
    (ht : t ∈ run_followups QF W tF ocF rowsF)
    (htk : t.att = some Outcome.skip) :
    s.new = s.old ∧ t.new = t.old := by
  rcases runFirstAux_mem Q today oc rows 0 0 s hs with ⟨h1, h2⟩ | ⟨_, hc⟩
  · rw [hsk] at h1; exact Option.noConfusion h1
  · rcases hc with ⟨ha, _⟩ | ⟨ha, _⟩ | ⟨ha, hnew⟩
    all_goals try (rw [hsk] at ha; simp at ha)
    rcases runFollowAux_mem QF W tF ocF rowsF 0 0 t ht with ⟨g1, g2⟩ | ⟨_, gc⟩
    · rw [htk] at g1; exact Option.noConfusion g1
    · rcases gc with ⟨ga, _⟩ | ⟨ga, _⟩ | ⟨ga, gnew⟩
      all_goals try (rw [htk] at ga; simp at ga)
      exact ⟨hnew, gnew⟩

/-- Claim C6 witness: safety-skipped concrete rows come out unchanged in
both stages. -/
theorem safety_skip_frame_witness :
    (Step.mk baseRow baseRow (some Outcome.skip)).new =
      (Step.mk baseRow baseRow (some Outcome.skip)).old ∧
    (Step.mk followRow followRow (some Outcome.skip)).new =
      (Step.mk followRow followRow (some Outcome.skip)).old :=
  safety_skip_frame 1 exTodayStr (fun _ _ => Outcome.skip) [baseRow]
    1 3 exToday (fun _ _ => Outcome.skip) [followRow]
    ⟨baseRow, baseRow, some Outcome.skip⟩
    ⟨followRow, followRow, some Outcome.skip⟩
    (by decide) rfl (by decide) rfl

theorem firstEligible_false_of_unreachable (row : Row)
    (h : row.status = str "unreachable") : ¬ firstEligible row = true := by
  intro he
  have h1 := ((firstEligible_iff row).mp he).1
  rw [h] at h1
  exact absurd h1 (by decide)

theorem followEligible_false_of_unreachable (today : PyDate) (W : Nat) (row : Row)
    (h : row.status = str "unreachable") : ¬ followEligible today W row = true := by
  intro he
  have h1 := ((followEligible_iff today W row).mp he).1
  rw [h] at h1
  rcases h1 with h1 | h1 <;> exact absurd h1 (by decide)

theorem firstEligible_false_of_m1_yes (row : Row)
    (h : pyUpper row.message1_sent = str "YES") : ¬ firstEligible row = true := by
  intro he
  have h1 := ((firstEligible_iff row).mp he).2.2
  rw [h] at h1
  exact h1 rfl

theorem followEligible_false_of_m1_yes (today : PyDate) (W : Nat) (row : Row)
    (h : pyUpper row.message1_sent = str "YES") :
    ¬ followEligible today W row = true := by
  intro he
  have h1 := ((followEligible_iff today W row).mp he).2.1
  rw [h] at h1
  exact absurd h1 (by decide)

/-- Claim C7 (confirmed): in both follow-up runs a row is attempted only if
its status lowercases to pending or connected, `message1_sent` uppercases
to TRUE, `message2_sent` does not uppercase to TRUE, `last_contacted`
parses as a valid ISO date, and today minus that date is at least the wait
`W`; rows whose `last_contacted` fails to parse, or is dated fewer than `W`
days before today, are skipped (no exception is modelled because the code
catches the ValueError and continues). -/
theorem followup_eligibility (Q W : Nat) (today : PyDate)
    (oc : Nat → Row → Outcome) (rows : List Row) (Q2 W2 : Nat) (t2 : PyDate)
    (ok2 : Nat → Row → Bool) (rows2 : List Row) (s : Step) (u : RbStep)
    (hs : s ∈ run_followups Q W today oc rows)
    (hu : u ∈ rb_run_followups Q2 W2 t2 ok2 rows2) :
    (s.att ≠ none →
      ((pyLower s.old.status = str "pending" ∨
        pyLower s.old.status = str "connected") ∧
       pyUpper s.old.message1_sent = str "TRUE" ∧
       pyUpper s.old.message2_sent ≠ str "TRUE" ∧
       ∃ d, fromIsoFormat s.old.last_contacted = some d ∧
         (W : Int) ≤ (toOrdinal today : Int) - (toOrdinal d : Int))) ∧
    (fromIsoFormat s.old.last_contacted = none → s.att = none) ∧
    (∀ d, fromIsoFormat s.old.last_contacted = some d →
      (toOrdinal today : Int) - (toOrdinal d : Int) < (W : Int) → s.att = none) ∧
    (u.att ≠ none →
      ((pyLower u.old.status = str "pending" ∨
        pyLower u.old.status = str "connected") ∧
       pyUpper u.old.message1_sent = str "TRUE" ∧
       pyUpper u.old.message2_sent ≠ str "TRUE" ∧
       ∃ d, fromIsoFormat u.old.last_contacted = some d ∧
         (W2 : Int) ≤ (toOrdinal t2 : Int) - (toOrdinal d : Int))) ∧
    (fromIsoFormat u.old.last_contacted = none → u.att = none) ∧
    (∀ d, fromIsoFormat u.old.last_contacted = some d →
      (toOrdinal t2 : Int) - (toOrdinal d : Int) < (W2 : Int) → u.att = none) := by
  have hel : s.att ≠ none → followEligible today W s.old = true := by
    intro hne
    rcases runFollowAux_mem Q W today oc rows 0 0 s hs with ⟨h1, _⟩ | ⟨he, _⟩
    · exact absurd h1 hne
    · exact he
  have huel : u.att ≠ none → followEligible t2 W2 u.old = true := by
    intro hne
    rcases rbRunFollowAux_mem Q2 W2 t2 ok2 rows2 0 0 u hu with ⟨h1, _⟩ | ⟨he, _⟩
    · exact absurd h1 hne
    · exact he
  refine ⟨fun hne => (followEligible_iff today W s.old).mp (hel hne),
          ?_, ?_,
          fun hne => (followEligible_iff t2 W2 u.old).mp (huel hne),
          ?_, ?_⟩
  · intro hpn
    by_contra hne
    obtain ⟨d, hd, _⟩ := ((followEligible_iff today W s.old).mp (hel hne)).2.2.2
    rw [hpn] at hd
    exact Option.noConfusion hd
  · intro d hd hlt
    by_contra hne
    obtain ⟨d', hd', hw⟩ := ((followEligible_iff today W s.old).mp (hel hne)).2.2.2
    rw [hd] at hd'
    obtain rfl := Option.some.inj hd'
    omega
  · intro hpn
    by_contra hne
    obtain ⟨d, hd, _⟩ := ((followEligible_iff t2 W2 u.old).mp (huel hne)).2.2.2
    rw [hpn] at hd
    exact Option.noConfusion hd
  · intro d hd hlt
    by_contra hne
    obtain ⟨d', hd', hw⟩ := ((followEligible_iff t2 W2 u.old).mp (huel hne)).2.2.2
    rw [hd] at hd'
    obtain rfl := Option.some.inj hd'
    omega

/-- Claim C7 witness: an eligible concrete follow-up row satisfies the
eligibility conclusion. -/
theorem followup_eligibility_witness :
    pyUpper (Step.mk followRow (applyFollowSent exToday followRow)
      (some Outcome.sent)).old.message1_sent = str "TRUE" :=
  ((followup_eligibility 1 3 exToday (fun _ _ => Outcome.sent) [followRow]
    1 3 exToday (fun _ _ => true) [followRow]
    ⟨followRow, applyFollowSent exToday followRow, some Outcome.sent⟩
    ⟨followRow, rbApplyFollowSent exToday followRow, some true⟩
    (by decide) (by decide)).1 (by decide)).2.1

/-- Claim C8 (confirmed): a row whose status is "unreachable" is never
selected by the first-message run nor by the follow-up run: its trace step
has no attempt and its row is unchanged. -/
theorem unreachable_terminal (Q : Nat) (today : Str) (oc : Nat → Row → Outcome)
    (rows : List Row) (QF W : Nat) (tF : PyDate) (ocF : Nat → Row → Outcome)
    (rowsF : List Row) (s t : Step)
    (hs : s ∈ run_first_messages Q today oc rows)
    (hstat : s.old.status = str "unreachable")
    (ht : t ∈ run_followups QF W tF ocF rowsF)
    (htstat : t.old.status = str "unreachable") :
    s.att = none ∧ s.new = s.old ∧ t.att = none ∧ t.new = t.old := by
  rcases runFirstAux_mem Q today oc rows 0 0 s hs with ⟨h1, h2⟩ | ⟨he, _⟩
  · rcases runFollowAux_mem QF W tF ocF rowsF 0 0 t ht with ⟨g1, g2⟩ | ⟨ge, _⟩
    · exact ⟨h1, h2, g1, g2⟩
    · exact absurd ge (followEligible_false_of_unreachable tF W t.old htstat)
  · exact absurd he (firstEligible_false_of_unreachable s.old hstat)

/-- Claim C8 witness: a concrete unreachable row is untouched by both
runs. -/
theorem unreachable_terminal_witness :
    (Step.mk unreachableRow unreachableRow (none : Option Outcome)).att = none :=
  (unreachable_terminal 1 exTodayStr (fun _ _ => Outcome.sent) [unreachableRow]
    1 3 exToday (fun _ _ => Outcome.sent) [unreachableRow]
    ⟨unreachableRow, unreachableRow, none⟩
    ⟨unreachableRow, unreachableRow, none⟩
    (by decide) rfl (by decide) rfl).1

/-- Claim C9, counterexample: the autofill script ingests the same
candidate (same linkedin_url) from the same pasted URL twice and produces
two rows — it performs no deduplication at all. -/
theorem ingestion_claim_counterexample :
    (autofill_main [] [exJobUrl, exJobUrl] (fun _ => [exCand])).countP
      (fun r => r.linkedin_url == exCand.linkedin_url) = 2 := by decide

/-- Claim C9, amended: `run_extract_recruiters` ingests as the claim
states — every appended row has a nonempty stripped linkedin_url absent
from the existing store's linkedin_url set, its job_url is absent from the
existing store's job_url set, and the batch-extended seen-sets make any
two appended rows differ in linkedin_url, so the same candidate is appended
at most once there; the autofill script's main flow, however, appends every
scraped candidate unconditionally and can duplicate rows. -/
theorem ingestion_amended (records : List Row) (urls : List Str)
    (recsFor : Str → List Candidate) :
    (∀ r ∈ run_extract_recruiters records urls recsFor,
        pyStrip r.linkedin_url ≠ [] ∧
        pyStrip r.linkedin_url ∉ existingSet (fun x => x.linkedin_url) records ∧
        r.job_url ∉ existingSet (fun x => x.job_url) records) ∧
    (run_extract_recruiters records urls recsFor).Pairwise
      (fun a b => pyStrip a.linkedin_url ≠ pyStrip b.linkedin_url) := by
  unfold run_extract_recruiters
  obtain ⟨h1, h2, _, _⟩ := ingestUrls_spec recsFor urls
    (existingSet (fun x => x.job_url) records)
    (existingSet (fun x => x.linkedin_url) records)
  exact ⟨fun r hr => ⟨(h1 r hr).1, (h1 r hr).2.1, (h1 r hr).2.2.1⟩, h2⟩

/-- Claim C9 witness: a concretely ingested row has a nonempty stripped
linkedin_url. -/
theorem ingestion_amended_witness :
    pyStrip (mkExtractRow exCand exJobUrl).linkedin_url ≠ [] :=
  ((ingestion_amended [] [exJobUrl] (fun _ => [exCand])).1
    (mkExtractRow exCand exJobUrl) (by decide)).1

/-- Claim C10 (confirmed): a row whose `message1_sent` uppercases to "YES"
is attempted by no stage of either script — first-message selection
excludes TRUE and YES, follow-up selection requires exactly TRUE — and the
row is left unchanged by every run. -/
theorem m1_yes_excluded (Q1 : Nat) (t1 : Str) (oc1 : Nat → Row → Outcome)
    (r1 : List Row) (Q2 W2 : Nat) (t2 : PyDate) (oc2 : Nat → Row → Outcome)
    (r2 : List Row) (Q3 : Nat) (t3 : Str) (ok3 : Nat → Row → Bool)
    (r3 : List Row) (Q4 W4 : Nat) (t4 : PyDate) (ok4 : Nat → Row → Bool)
    (r4 : List Row) (s t : Step) (u v : RbStep)
    (hs : s ∈ run_first_messages Q1 t1 oc1 r1)
    (hys : pyUpper s.old.message1_sent = str "YES")
    (ht : t ∈ run_followups Q2 W2 t2 oc2 r2)
    (hyt : pyUpper t.old.message1_sent = str "YES")
    (hu : u ∈ rb_run_first_messages Q3 t3 ok3 r3)
    (hyu : pyUpper u.old.message1_sent = str "YES")
    (hv : v ∈ rb_run_followups Q4 W4 t4 ok4 r4)
    (hyv : pyUpper v.old.message1_sent = str "YES") :
    (s.att = none ∧ s.new = s.old) ∧ (t.att = none ∧ t.new = t.old) ∧
    (u.att = none ∧ u.new = u.old) ∧ (v.att = none ∧ v.new = v.old) := by
  refine ⟨?_, ?_, ?_, ?_⟩
  · rcases runFirstAux_mem Q1 t1 oc1 r1 0 0 s hs with h | ⟨he, _⟩
    · exact h
    · exact absurd he (firstEligible_false_of_m1_yes s.old hys)
  · rcases runFollowAux_mem Q2 W2 t2 oc2 r2 0 0 t ht with h | ⟨he, _⟩
    · exact h
    · exact absurd he (followEligible_false_of_m1_yes t2 W2 t.old hyt)
  · rcases rbRunFirstAux_mem Q3 t3 ok3 r3 0 0 u hu with h | ⟨he, _⟩
    · exact h
    · exact absurd he (firstEligible_false_of_m1_yes u.old hyu)
  · rcases rbRunFollowAux_mem Q4 W4 t4 ok4 r4 0 0 v hv with h | ⟨he, _⟩
    · exact h
    · exact absurd he (followEligible_false_of_m1_yes t4 W4 v.old hyv)

/-- Claim C10 witness: a concrete row with message1_sent "yes" is skipped
by all four runs. -/
theorem m1_yes_excluded_witness :
    (Step.mk m1YesRow m1YesRow (none : Option Outcome)).att = none :=
  ((m1_yes_excluded 1 exTodayStr (fun _ _ => Outcome.sent) [m1YesRow]
    1 3 exToday (fun _ _ => Outcome.sent) [m1YesRow]
    1 exTodayStr (fun _ _ => true) [m1YesRow]
    1 3 exToday (fun _ _ => true) [m1YesRow]
    ⟨m1YesRow, m1YesRow, none⟩ ⟨m1YesRow, m1YesRow, none⟩
    ⟨m1YesRow, m1YesRow, none⟩ ⟨m1YesRow, m1YesRow, none⟩
    (by decide) (by decide) (by decide) (by decide)
    (by decide) (by decide) (by decide) (by decide)).1).1
